import Mathlib

/-!
Shallow embedding of the availability engine of the smart-scheduler repository.

Time is modelled as whole minutes since the epoch 1970-01-01T00:00 UTC
(an `Int`).  A calendar date is the number of whole days since the epoch,
so the date of an instant `t` is `t.fdiv 1440` and its hour of day is
`(t.emod 1440).fdiv 60`, matching Python's `datetime.date()` / `.hour`
on a UTC-aware datetime.  1970-01-01 was a Thursday, and Python's
`date.weekday()` has Monday = 0, so `weekday d = (d + 3) % 7`.

The India Standard Time zone (`Asia/Kolkata`) used by the source has the
fixed offset UTC+5:30 and no daylight saving, so localizing a wall-clock
time on date `d` at hour `h` in IST and converting to UTC subtracts 330
minutes.

Sources embedded:
  * `src/calendar_integration/google_calendar.py`:
    `get_events`, `find_free_slots`, `_find_day_free_slots`,
    `_find_day_free_slots_ist_aware` (the leading underscore is dropped);
  * `src/calendar_integration/calendar_utils.py`:
    `CalendarUtils.filter_slots_by_preferences`.
-/

/-- A candidate slot: `{'start': ..., 'end': ...}` in the source
(`end` is a Lean keyword, so the field is called `endTime`).
The `formatted_time` display string is irrelevant to every claim and
is omitted. -/
structure Slot where
  start : Int
  endTime : Int
deriving DecidableEq, Repr

/-- A parsed busy event: the UTC instants produced by
`_parse_event_time` for the event's `start` and `end` fields. -/
structure Event where
  start : Int
  endTime : Int
deriving DecidableEq, Repr

/-- Python `t.date()` on a UTC datetime, as days since the epoch. -/
def minuteDate (t : Int) : Int := t.fdiv 1440

/-- Python `t.hour` on a UTC datetime. -/
def minuteHour (t : Int) : Int := (t.emod 1440).fdiv 60

/-- Python `date.weekday()`: Monday = 0, ..., Sunday = 6. -/
def pyWeekday (d : Int) : Int := (d + 3).emod 7

/-- Overlap of two slots, as defined in the spec's Interval Model:
`a.start < b.end and b.start < a.end`. -/
def overlaps (a b : Slot) : Prop := a.start < b.endTime ∧ b.start < a.endTime

instance (a b : Slot) : Decidable (overlaps a b) :=
  inferInstanceAs (Decidable (a.start < b.endTime ∧ b.start < a.endTime))

/-!
### The slot-emission loop

Both `_find_day_free_slots` (per free gap) and
`_find_day_free_slots_ist_aware` (whole free window) contain the loop

    while slot_start + timedelta(minutes=duration_minutes) <= slot_end:
        valid_slots.append({'start': slot_start, 'end': slot_start + duration})
        slot_start += timedelta(hours=1)

`slotLoopF` is that loop with an explicit fuel so that it is structural
and computes by `decide`; `slotLoop` supplies a fuel that is proved
sufficient by `mem_slotLoop_iff`, which characterizes the output exactly
as the while loop does.
-/

def slotLoopF : Nat → Int → Int → Int → List Slot
  | 0, _, _, _ => []
  | fuel + 1, cur, stop, dur =>
    if cur + dur ≤ stop then
      { start := cur, endTime := cur + dur } :: slotLoopF fuel (cur + 60) stop dur
    else []

def slotLoop (cur stop dur : Int) : List Slot :=
  slotLoopF (stop + 60 - dur - cur).toNat cur stop dur

theorem mem_slotLoopF (fuel : Nat) (cur stop dur : Int) (s : Slot)
    (h : s ∈ slotLoopF fuel cur stop dur) :
    ∃ k : Nat, s.start = cur + 60 * k ∧ s.endTime = cur + 60 * k + dur ∧
      cur + 60 * k + dur ≤ stop := by
  induction fuel generalizing cur with
  | zero => simp [slotLoopF] at h
  | succ fuel ih =>
    simp only [slotLoopF] at h
    by_cases hg : cur + dur ≤ stop
    · rw [if_pos hg] at h
      rcases List.mem_cons.mp h with h1 | h2
      · exact ⟨0, by simp [h1], by simp [h1], by simpa using hg⟩
      · rcases ih (cur + 60) h2 with ⟨k, hk1, hk2, hk3⟩
        exact ⟨k + 1, by push_cast; omega, by push_cast; omega, by push_cast at hk3 ⊢; omega⟩
    · rw [if_neg hg] at h
      simp at h

theorem slotLoopF_mem (fuel : Nat) (cur stop dur : Int) (k : Nat)
    (hfuel : k < fuel) (hk : cur + 60 * k + dur ≤ stop) :
    (⟨cur + 60 * k, cur + 60 * k + dur⟩ : Slot) ∈ slotLoopF fuel cur stop dur := by
  induction fuel generalizing cur k with
  | zero => omega
  | succ fuel ih =>
    have hg : cur + dur ≤ stop := by omega
    simp only [slotLoopF, if_pos hg]
    cases k with
    | zero =>
      have h0 : (⟨cur + 60 * (0 : Nat), cur + 60 * (0 : Nat) + dur⟩ : Slot) =
          (⟨cur, cur + dur⟩ : Slot) := by simp
      rw [h0]
      exact List.mem_cons_self _ _
    | succ k' =>
      right
      have := ih (cur + 60) k' (by omega) (by push_cast at hk ⊢; omega)
      have harith : cur + 60 + 60 * (k' : Int) = cur + 60 * ((k' : Int) + 1) := by ring
      push_cast at this ⊢
      rw [harith] at this
      exact this

/-- The fuel-based loop equals the source's while loop: a slot is emitted
iff it starts at `cur + 60·k` for some `k ≥ 0` with
`slot_start + duration ≤ stop`. -/
theorem mem_slotLoop_iff (cur stop dur : Int) (s : Slot) :
    s ∈ slotLoop cur stop dur ↔
      ∃ k : Nat, s.start = cur + 60 * k ∧ s.endTime = cur + 60 * k + dur ∧
        cur + 60 * k + dur ≤ stop := by
  constructor
  · exact mem_slotLoopF _ cur stop dur s
  · rintro ⟨k, h1, h2, h3⟩
    have hfuel : k < (stop + 60 - dur - cur).toNat := by
      have : (k : Int) ≤ 60 * k := by omega
      omega
    have := slotLoopF_mem (stop + 60 - dur - cur).toNat cur stop dur k hfuel h3
    have hs : s = (⟨cur + 60 * k, cur + 60 * k + dur⟩ : Slot) := by
      cases s; simp_all
    rw [hs]
    exact this

/-!
### Day window of `_find_day_free_slots_ist_aware`

The function receives `working_hours = (start_hour_utc, end_hour_utc)` but
maps only `start_hour_utc` to one of four fixed IST bands and then converts
the band to UTC (`Asia/Kolkata` is UTC+5:30, no DST, so conversion
subtracts 330 minutes); `end_hour_utc` is never read.
-/

def istHours (startHourUtc : Int) : Int × Int :=
  if startHourUtc = 3 then (9, 12)
  else if startHourUtc = 6 then (12, 18)
  else if startHourUtc = 12 then (18, 22)
  else (9, 22)

def istOffsetMinutes : Int := 330

/-- The UTC day window `(day_start_utc, day_end_utc)` computed by
`_find_day_free_slots_ist_aware` for a date and a `working_hours` pair. -/
def dayWindowUtc (date : Int) (working_hours : Int × Int) : Int × Int :=
  let h := istHours working_hours.1
  (date * 1440 + h.1 * 60 - istOffsetMinutes,
   date * 1440 + h.2 * 60 - istOffsetMinutes)

/-- The event filter of `_find_day_free_slots_ist_aware`: skip "all-day"
events (duration ≥ 24 h), keep an event iff its start or end falls on the
given UTC date and it intersects the day window. -/
def relevantDayEvent (date dayStartUtc dayEndUtc : Int) (e : Event) : Bool :=
  decide (¬ (1440 ≤ e.endTime - e.start) ∧
    ((minuteDate e.start = date ∨ minuteDate e.endTime = date) ∧
     ¬ (e.endTime ≤ dayStartUtc ∨ e.start ≥ dayEndUtc)))

/-- `_find_day_free_slots_ist_aware`.  When no relevant events remain the
source generates hourly slots over the whole window and returns them; when
relevant events exist the source has no `return` statement on that path,
so the Python function returns `None` — modelled as `none`. -/
def find_day_free_slots_ist_aware (date : Int) (events : List Event)
    (duration_minutes : Int) (working_hours : Int × Int) : Option (List Slot) :=
  let w := dayWindowUtc date working_hours
  let dayEvents := events.filter (relevantDayEvent date w.1 w.2)
  if dayEvents.isEmpty then
    some (slotLoop w.1 w.2 duration_minutes)
  else
    none

/-!
### `_find_day_free_slots` (the gap-based per-day generator)

This sibling function (not called by `find_free_slots`, which uses the
`ist_aware` variant) localizes the supplied `working_hours` directly in
UTC (`self.timezone` is `pytz.timezone('UTC')`), computes the free gaps
between sorted busy events, and emits hourly slots inside each gap.
-/

/-- A gap record `{'start': ..., 'end': ..., 'duration_available': ...}`. -/
structure Gap where
  start : Int
  endTime : Int
  avail : Int
deriving DecidableEq, Repr

/-- The gap-finding loop of `_find_day_free_slots`: walk the sorted events,
emitting a gap before each event that intersects the window when the gap is
long enough, then a final gap up to the end of the window. -/
def gapLoop (dayStart dayEnd dur : Int) : Int → List Event → List Gap
  | cur, [] =>
    if cur < dayEnd ∧ dur ≤ dayEnd - cur then [⟨cur, dayEnd, dayEnd - cur⟩] else []
  | cur, e :: rest =>
    if e.endTime ≤ dayStart ∨ dayEnd ≤ e.start then
      gapLoop dayStart dayEnd dur cur rest
    else
      let es := max e.start dayStart
      let ee := min e.endTime dayEnd
      (if cur < es ∧ dur ≤ es - cur then [⟨cur, es, es - cur⟩] else []) ++
        gapLoop dayStart dayEnd dur (max cur ee) rest

/-- Stable insertion used to model Python's stable `list.sort(key=start)`. -/
def insertByStart (e : Event) : List Event → List Event
  | [] => [e]
  | x :: xs => if e.start ≤ x.start then e :: x :: xs else x :: insertByStart e xs

def sortByStart (l : List Event) : List Event := l.foldr insertByStart []

/-- `_find_day_free_slots`: day window in UTC from the supplied hour pair,
events on the date sorted by start, gaps computed by `gapLoop`, and hourly
slots generated inside each gap of sufficient length. -/
def find_day_free_slots (date : Int) (events : List Event)
    (duration_minutes : Int) (working_hours : Int × Int) : List Slot :=
  let dayStart := date * 1440 + working_hours.1 * 60
  let dayEnd := date * 1440 + working_hours.2 * 60
  let dayEvents := events.filter
    (fun e => decide (minuteDate e.start = date ∨ minuteDate e.endTime = date))
  let sorted := sortByStart dayEvents
  let gaps := gapLoop dayStart dayEnd duration_minutes dayStart sorted
  gaps.flatMap (fun g =>
    if duration_minutes ≤ g.avail then
      slotLoop g.start g.endTime duration_minutes
    else [])

/-!
### `get_events` and `find_free_slots`

`get_events` wraps the provider call in `try/except` and returns `[]` on
any failure, so a fetch error is indistinguishable from an empty calendar.
`find_free_slots` iterates the dates of the range, skipping weekends when
`include_weekends` is false, and extends its accumulator with each day's
slots.  When `_find_day_free_slots_ist_aware` returns `None` the call
`free_slots.extend(day_slots)` raises `TypeError`, which the enclosing
`except` turns into a returned `[]` — modelled by the `Option` fold
collapsing to `[]`.
-/

/-- Outcome of the underlying calendar fetch
(`self.service.events().list(...).execute()`). -/
inductive FetchResult where
  | ok : List Event → FetchResult
  | error : FetchResult
deriving DecidableEq, Repr

/-- `get_events`: returns the fetched events, or `[]` when the fetch
raises (the `except` branch logs and returns `[]`). -/
def get_events (fetch : FetchResult) : List Event :=
  match fetch with
  | .ok events => events
  | .error => []

/-- The date iteration `while current_date <= end_date.date()`. -/
def dateRange (startDate endDate : Int) : List Int :=
  if startDate ≤ endDate then
    (List.range (endDate - startDate + 1).toNat).map (fun i => startDate + i)
  else []

/-- The per-day loop body of `find_free_slots`, threading the accumulated
slots; `none` represents the `TypeError` raised by `extend(None)`. -/
def findFreeSlotsDays (duration_minutes : Int) (dates : List Int)
    (events : List Event) (working_hours : Int × Int)
    (include_weekends : Bool) : Option (List Slot) :=
  dates.foldl
    (fun acc d =>
      match acc with
      | none => none
      | some slots =>
        if include_weekends || pyWeekday d < 5 then
          match find_day_free_slots_ist_aware d events duration_minutes working_hours with
          | some daySlots => some (slots ++ daySlots)
          | none => none
        else some slots)
    (some [])

/-- `find_free_slots`: fetch events, walk the date range, and return the
accumulated slots; any exception inside the `try` (in particular the
`TypeError` from extending with `None`) is caught and `[]` is returned. -/
def find_free_slots (duration_minutes : Int) (startDate endDate : Int)
    (working_hours : Int × Int) (include_weekends : Bool)
    (fetch : FetchResult) : List Slot :=
  let events := get_events fetch
  match findFreeSlotsDays duration_minutes (dateRange startDate endDate)
      events working_hours include_weekends with
  | some slots => slots
  | none => []

/-!
### `CalendarUtils.filter_slots_by_preferences`

The preference record is the dict built by `_search_and_present_slots`:
keys `days` (weekday names), `times` (free-text time-of-day strings),
`constraints` (tags such as `not_early`), and `target_date` (a date or
`None`).  Python's substring test `'morning' in pref_lower` is modelled
by a contiguous-sublist check on the lowercased character list.
-/

structure Preferences where
  days : List String
  times : List String
  constraints : List String
  target_date : Option Int
deriving DecidableEq, Repr

/-- Leading-segment match of character lists. -/
def leadsChars : List Char → List Char → Bool
  | [], _ => true
  | _ :: _, [] => false
  | a :: as, b :: bs => a = b && leadsChars as bs

/-- Python's `needle in hay` on strings: `needle` occurs contiguously. -/
def containsSub (needle : List Char) : List Char → Bool
  | [] => leadsChars needle []
  | b :: bs => leadsChars needle (b :: bs) || containsSub needle bs

/-- `str(pref).lower()`. -/
def lowerChars (s : String) : List Char := s.toList.map Char.toLower

/-- One iteration of the CHECK 3 loop: does one preference string match
the slot's start hour? -/
def matchesTimePref (slotHour : Int) (pref : String) : Bool :=
  let p := lowerChars pref
  if containsSub "morning".toList p then
    if containsSub "late".toList p then decide (10 ≤ slotHour ∧ slotHour < 12)
    else decide (9 ≤ slotHour ∧ slotHour < 12)
  else if containsSub "afternoon".toList p then decide (12 ≤ slotHour ∧ slotHour < 18)
  else if containsSub "evening".toList p then decide (18 ≤ slotHour ∧ slotHour < 22)
  else false

/-- `slot_start.strftime('%A')`. -/
def weekdayName (d : Int) : String :=
  let w := pyWeekday d
  if w = 0 then "Monday"
  else if w = 1 then "Tuesday"
  else if w = 2 then "Wednesday"
  else if w = 3 then "Thursday"
  else if w = 4 then "Friday"
  else if w = 5 then "Saturday"
  else "Sunday"

/-- The loop body of `filter_slots_by_preferences`: a slot survives all
four `continue` checks.  CHECK 1 applies only when `target_date` is set
(a Python date object is always truthy); CHECK 2 applies only when it is
not; CHECK 3 when `times` is non-empty; CHECK 4 scans `constraints`. -/
def keepSlot (preferences : Preferences) (slot : Slot) : Bool :=
  let slotDate := minuteDate slot.start
  let slotHour := minuteHour slot.start
  let targetOk :=
    match preferences.target_date with
    | some td => decide (slotDate = td)
    | none => true
  let daysOk :=
    match preferences.target_date with
    | some _ => true
    | none =>
      match preferences.days with
      | [] => true
      | _ :: _ => preferences.days.contains (weekdayName slotDate)
  let timesOk :=
    match preferences.times with
    | [] => true
    | _ :: _ => preferences.times.any (matchesTimePref slotHour)
  let constraintsOk :=
    ! preferences.constraints.any (fun c => c == "not_early" && decide (slotHour < 9))
  targetOk && daysOk && timesOk && constraintsOk

/-- `CalendarUtils.filter_slots_by_preferences`: keep, in order, the slots
that pass every check. -/
def filter_slots_by_preferences (slots : List Slot) (preferences : Preferences) :
    List Slot :=
  slots.filter (keepSlot preferences)

/-- One iteration of the source's `for slot in slots` loop with the state
it touches made explicit: the accumulated `filtered_slots` and the
preference record the iteration reads. -/
def filterStep (st : List Slot × Preferences) (slot : Slot) : List Slot × Preferences :=
  if keepSlot st.2 slot then (st.1 ++ [slot], st.2) else (st.1, st.2)

/-- `filter_slots_by_preferences` with the preference record threaded as
explicit state, to express what the call leaves unchanged. -/
def filterSlotsByPreferencesSt (slots : List Slot) (preferences : Preferences) :
    List Slot × Preferences :=
  slots.foldl filterStep ([], preferences)

/-!
## Claims
-/

/-- Claim C1.  The claim describes gap-based slot generation (slots at
09:00, 10:00 from the gap before a 11:00–11:30 busy block, then 11:30,
12:30, ..., 15:30 after it; a day with a conflicting busy event still
yields the gap slots).  The gap algorithm exists only in the unused
`_find_day_free_slots` (third conjunct: for date 0, window 09:00–17:00
UTC, busy 11:00–11:30 UTC, duration 60 it emits exactly the seven claimed
slots).  The generator actually called, `_find_day_free_slots_ist_aware`,
has no `return` on the path with conflicting events and yields `None`
(first conjunct: window IST 09:00–12:00, busy IST 11:00–11:30, i.e. UTC
minutes 330–360), upon which `find_free_slots` raises a `TypeError` on
`extend(None)`, caught by its `except`, and returns `[]` (second
conjunct) — the empty result the claim rules out. -/
theorem c1_gap_slots_on_day_with_busy_event :
    find_day_free_slots_ist_aware 0 [⟨330, 360⟩] 60 (3, 16) = none ∧
    find_free_slots 60 0 0 (3, 16) true (FetchResult.ok [⟨330, 360⟩]) = [] ∧
    find_day_free_slots 0 [⟨660, 690⟩] 60 (9, 17) =
      [⟨540, 600⟩, ⟨600, 660⟩, ⟨690, 750⟩, ⟨750, 810⟩,
       ⟨810, 870⟩, ⟨870, 930⟩, ⟨930, 990⟩] := by
  refine ⟨by decide, by decide, by decide⟩

/-- Claim C2, counterexample.  On a fetch failure `find_free_slots` does
not fail: `get_events` swallows the error and returns `[]`
(`CalendarUnavailableError` does not exist in the code), and for a
Saturday-only range with `include_weekends = false` the search silently
returns the empty slot list — exactly what the claim says never happens —
indistinguishable from the same call with an empty calendar.
Date 2 = 1970-01-03, a Saturday. -/
theorem c2_fetch_failure_returns_empty_list :
    find_free_slots 60 2 2 (9, 17) false FetchResult.error = [] ∧
    find_free_slots 60 2 2 (9, 17) false (FetchResult.ok []) = [] ∧
    get_events FetchResult.error = [] := by
  refine ⟨by decide, by decide, rfl⟩

/-- Claim C2, amended.  When the underlying fetch fails, `get_events`
returns `[]` and `find_free_slots` proceeds as if the calendar were
empty: for every input its result on a failed fetch equals its result on
a successful fetch of an empty event list, so the caller cannot
distinguish "no busy events" from "couldn't check". -/
theorem c2_amended_failure_indistinguishable (duration_minutes sd ed : Int)
    (wh : Int × Int) (iw : Bool) :
    find_free_slots duration_minutes sd ed wh iw FetchResult.error =
      find_free_slots duration_minutes sd ed wh iw (FetchResult.ok []) :=
  rfl

/-- Claim C3, counterexample.  For a 90-minute duration (greater than the
60-minute stride) the generator emits, for one day with no busy events,
the two distinct slots [210, 300) and [270, 360) (IST window 09:00–12:00
on date 0), and they overlap. -/
theorem c3_consecutive_slots_overlap_for_duration_90 :
    find_day_free_slots_ist_aware 0 [] 90 (3, 16) =
      some [⟨210, 300⟩, ⟨270, 360⟩] ∧
    (⟨210, 300⟩ : Slot) ≠ ⟨270, 360⟩ ∧
    overlaps ⟨210, 300⟩ ⟨270, 360⟩ := by
  refine ⟨by decide, by decide, by decide⟩

/-- Claim C3, amended.  Distinct slots returned for the same day by the
slot generator do not overlap provided `duration_minutes ≤ 60`, the
generation stride; slots are spaced 60 minutes apart, so for durations
greater than the stride consecutive slots overlap. -/
theorem c3_amended_no_overlap_when_duration_le_stride
    (date : Int) (events : List Event) (duration_minutes : Int)
    (working_hours : Int × Int) (l : List Slot) (s1 s2 : Slot)
    (hdur : duration_minutes ≤ 60)
    (hl : find_day_free_slots_ist_aware date events duration_minutes working_hours = some l)
    (h1 : s1 ∈ l) (h2 : s2 ∈ l) (hne : s1 ≠ s2) :
    ¬ overlaps s1 s2 := by
  unfold find_day_free_slots_ist_aware at hl
  by_cases hempty :
      (events.filter (relevantDayEvent date (dayWindowUtc date working_hours).1
        (dayWindowUtc date working_hours).2)).isEmpty
  · simp only [hempty, if_true, Option.some.injEq] at hl
    subst hl
    rcases (mem_slotLoop_iff _ _ _ s1).mp h1 with ⟨k1, ha1, hb1, hc1⟩
    rcases (mem_slotLoop_iff _ _ _ s2).mp h2 with ⟨k2, ha2, hb2, hc2⟩
    have hkne : k1 ≠ k2 := by
      intro hk
      apply hne
      cases s1; cases s2
      subst hk
      simp_all
    intro hov
    rcases hov with ⟨ho1, ho2⟩
    have : (k1 : Int) ≠ (k2 : Int) := by exact_mod_cast hkne
    omega
  · rw [if_neg hempty] at hl
    exact absurd hl (by simp)

/-- Witness for the amended C3 theorem at a concrete input: duration 60,
date 0, empty calendar; the first two generated slots do not overlap. -/
theorem c3_amended_witness :
    (60 : Int) ≤ 60 ∧ ¬ overlaps (⟨210, 270⟩ : Slot) ⟨270, 330⟩ :=
  ⟨by decide,
   c3_amended_no_overlap_when_duration_le_stride 0 [] 60 (3, 16)
     [⟨210, 270⟩, ⟨270, 330⟩, ⟨330, 390⟩] ⟨210, 270⟩ ⟨270, 330⟩
     (by decide) (by decide) (by decide) (by decide) (by decide)⟩

/-- Claim C4.  The slot generators and the surrounding search read no
state other than their arguments (the source's `print`/logging side
effects do not influence the result), so the embedding is a pure
function and two invocations on identical inputs return identical lists,
element for element and in order. -/
theorem c4_determinism (date : Int) (events : List Event)
    (duration_minutes : Int) (working_hours : Int × Int) :
    find_day_free_slots_ist_aware date events duration_minutes working_hours =
      find_day_free_slots_ist_aware date events duration_minutes working_hours ∧
    find_day_free_slots date events duration_minutes working_hours =
      find_day_free_slots date events duration_minutes working_hours ∧
    (∀ (sd ed : Int) (iw : Bool) (fetch : FetchResult),
      find_free_slots duration_minutes sd ed working_hours iw fetch =
        find_free_slots duration_minutes sd ed working_hours iw fetch) :=
  ⟨rfl, rfl, fun _ _ _ _ => rfl⟩

/-- Claim C5.  When `target_date` is set (and the record carries no
time-of-day or constraint entries, as in the claim's scenario), the
filter keeps exactly the slots whose UTC date equals the target date:
the `preferred_days` entries — arbitrary here, in particular a weekday
the target date is not — are never consulted. -/
theorem c5_target_date_precedence (slots : List Slot) (p : Preferences) (d : Int)
    (ht : p.target_date = some d) (hti : p.times = []) (hc : p.constraints = []) :
    filter_slots_by_preferences slots p =
      slots.filter (fun s => decide (minuteDate s.start = d)) := by
  unfold filter_slots_by_preferences
  apply List.filter_congr
  intro s _
  simp [keepSlot, ht, hti, hc]

/-- Witness for C5: target date 1 (1970-01-02, a Friday) with
`preferred_days = ["Monday"]`; the slot on date 1 is kept although
Friday is not Monday, and the slot on date 0 is dropped. -/
theorem c5_witness :
    filter_slots_by_preferences [⟨2040, 2100⟩, ⟨600, 660⟩]
      ⟨["Monday"], [], [], some 1⟩ = [⟨2040, 2100⟩] := by
  have h := c5_target_date_precedence [⟨2040, 2100⟩, ⟨600, 660⟩]
    ⟨["Monday"], [], [], some 1⟩ 1 rfl rfl rfl
  rw [h]
  decide

/-- Claim C6, counterexample.  For `working_hours = (9, 17)` — the pair
the scheduler passes for a default search — the claim's window is the
home-timezone-local 09:00–17:00 on date 0, i.e. UTC minutes (210, 690);
the code instead falls into the catch-all branch and uses IST
09:00–22:00, i.e. (210, 990).  The supplied `end_hour` is never read. -/
theorem c6_window_ignores_hour_pair :
    dayWindowUtc 0 (9, 17) = (210, 990) ∧
    ((210, 990) : Int × Int) ≠ (210, 690) := by
  refine ⟨by decide, by decide⟩

/-- Claim C6, amended.  The day window depends only on `start_hour`,
never on `end_hour`: start 3 gives IST 09:00–12:00, start 6 gives IST
12:00–18:00, start 12 gives IST 18:00–22:00, and any other pair gives
IST 09:00–22:00, each converted to UTC instants by subtracting the fixed
330-minute IST offset. -/
theorem c6_amended_fixed_ist_bands (date s e e' : Int) :
    dayWindowUtc date (s, e) = dayWindowUtc date (s, e') ∧
    dayWindowUtc date (3, e) =
      (date * 1440 + 9 * 60 - 330, date * 1440 + 12 * 60 - 330) ∧
    dayWindowUtc date (6, e) =
      (date * 1440 + 12 * 60 - 330, date * 1440 + 18 * 60 - 330) ∧
    dayWindowUtc date (12, e) =
      (date * 1440 + 18 * 60 - 330, date * 1440 + 22 * 60 - 330) ∧
    (s ≠ 3 → s ≠ 6 → s ≠ 12 → dayWindowUtc date (s, e) =
      (date * 1440 + 9 * 60 - 330, date * 1440 + 22 * 60 - 330)) := by
  refine ⟨rfl, rfl, rfl, rfl, ?_⟩
  intro h3 h6 h12
  simp [dayWindowUtc, istHours, istOffsetMinutes, h3, h6, h12]

/-- Witness for the amended C6 theorem at date 5, start hour 9, end
hours 17 and 99. -/
theorem c6_amended_witness :
    dayWindowUtc 5 (9, 17) = dayWindowUtc 5 (9, 99) ∧
    dayWindowUtc 5 (9, 17) = (5 * 1440 + 9 * 60 - 330, 5 * 1440 + 22 * 60 - 330) :=
  ⟨(c6_amended_fixed_ist_bands 5 9 17 99).1,
   (c6_amended_fixed_ist_bands 5 9 17 99).2.2.2.2
     (by decide) (by decide) (by decide)⟩

/-- Claim C7.  Every candidate slot emitted by either per-day generator
spans exactly the requested number of minutes: slots returned by
`_find_day_free_slots_ist_aware` (when it returns a list) and slots
produced by the gap-based `_find_day_free_slots` all satisfy
`end - start = duration_minutes`. -/
theorem c7_exact_duration (date : Int) (events : List Event)
    (duration_minutes : Int) (working_hours : Int × Int) (s : Slot) :
    (∀ l, find_day_free_slots_ist_aware date events duration_minutes working_hours =
        some l → s ∈ l → s.endTime - s.start = duration_minutes) ∧
    (s ∈ find_day_free_slots date events duration_minutes working_hours →
      s.endTime - s.start = duration_minutes) := by
  constructor
  · intro l hl hs
    unfold find_day_free_slots_ist_aware at hl
    by_cases hempty :
        (events.filter (relevantDayEvent date (dayWindowUtc date working_hours).1
          (dayWindowUtc date working_hours).2)).isEmpty
    · rw [if_pos hempty, Option.some.injEq] at hl
      subst hl
      rcases (mem_slotLoop_iff _ _ _ s).mp hs with ⟨k, ha, hb, _⟩
      omega
    · rw [if_neg hempty] at hl
      exact absurd hl (by simp)
  · intro hs
    unfold find_day_free_slots at hs
    rcases List.mem_flatMap.mp hs with ⟨g, _, hg⟩
    by_cases hd : duration_minutes ≤ g.avail
    · rw [if_pos hd] at hg
      rcases (mem_slotLoop_iff _ _ _ s).mp hg with ⟨k, ha, hb, _⟩
      omega
    · rw [if_neg hd] at hg
      simp at hg

/-- Witness for C7 at a concrete input: the first slot generated for
date 0, empty calendar, duration 60 lasts exactly 60 minutes. -/
theorem c7_witness :
    (Slot.mk 210 270).endTime - (Slot.mk 210 270).start = 60 :=
  (c7_exact_duration 0 [] 60 (3, 16) ⟨210, 270⟩).1
    [⟨210, 270⟩, ⟨270, 330⟩, ⟨330, 390⟩] (by decide) (by decide)

/-- Claim C8.  The preference filter is idempotent: each check depends
only on the slot and the (unchanged) preference record, so filtering an
already-filtered list with the same record returns it unchanged. -/
theorem c8_filter_idempotent (slots : List Slot) (p : Preferences) :
    filter_slots_by_preferences (filter_slots_by_preferences slots p) p =
      filter_slots_by_preferences slots p := by
  unfold filter_slots_by_preferences
  rw [List.filter_filter]
  apply List.filter_congr
  intro s _
  simp

/-- The filtering loop threaded over any initial accumulator: it appends
the surviving slots and leaves the preference component untouched. -/
theorem foldl_filterStep (slots : List Slot) (acc : List Slot) (p : Preferences) :
    slots.foldl filterStep (acc, p) = (acc ++ slots.filter (keepSlot p), p) := by
  induction slots generalizing acc with
  | nil => simp
  | cons a t ih =>
    simp only [List.foldl_cons, filterStep]
    by_cases h : keepSlot p a
    · rw [if_pos h, ih]
      simp [List.filter_cons, h]
    · rw [if_neg h, ih]
      simp [List.filter_cons, h]

/-- Claim C9.  The filter never mutates the preference record: with the
loop's state made explicit, the record component of the final state is
the record passed in (so its days, times, constraints and target-date
entries are all unchanged and the caller may reuse it), while the slot
component is exactly the filtered list. -/
theorem c9_filter_preserves_preferences (slots : List Slot) (p : Preferences) :
    (filterSlotsByPreferencesSt slots p).2 = p ∧
    (filterSlotsByPreferencesSt slots p).1 = filter_slots_by_preferences slots p := by
  unfold filterSlotsByPreferencesSt filter_slots_by_preferences
  rw [foldl_filterStep]
  simp

/-- Claim C10.  With an all-empty preference record (no target date, no
days, no times, no constraints) every check passes, so the filter is the
identity on any slot list, order included. -/
theorem c10_empty_preferences_identity (slots : List Slot) (p : Preferences)
    (ht : p.target_date = none) (hd : p.days = [])
    (hti : p.times = []) (hc : p.constraints = []) :
    filter_slots_by_preferences slots p = slots := by
  unfold filter_slots_by_preferences
  rw [List.filter_eq_self]
  intro s _
  simp [keepSlot, ht, hd, hti, hc]

/-- Witness for C10 at a concrete input. -/
theorem c10_witness :
    filter_slots_by_preferences [⟨600, 660⟩] ⟨[], [], [], none⟩ = [⟨600, 660⟩] :=
  c10_empty_preferences_identity [⟨600, 660⟩] ⟨[], [], [], none⟩ rfl rfl rfl rfl
